import Mathlib

/-!
Shallow embedding of the jmw/gmw decision engine: a Maven/WildFly build and
deployment helper that exists in two implementations in this repository, a
Go one (`internal/config/config.go`, `internal/detector/detector.go`, the Go
builder embedded in `build.js`) and a JavaScript one (`src/detector.js` given
as `unnamed/part_000`, `src/builder.js` and `src/deployer.js` concatenated in
`src/deployer.js`).  Pure decision logic is translated directly; filesystem
probes (`os.Stat`, `fs.existsSync`) and the external regular-expression and
process-execution libraries are passed in as oracle parameters.
-/

/-! ## Path helpers

Paths are absolute slash-separated strings.  `pathSegments` splits a path
into its non-empty segments (structurally recursive so that the kernel can
evaluate it), `joinSeg` joins segments with "/", and `relPath` models
Go `filepath.Rel` / Node `path.relative` on absolute slash paths: drop the
common leading segments, then one ".." per remaining base segment followed
by the remaining target segments.
-/

/-- Split a character list at the character given first; separators delimit
(possibly empty) chunks. -/
def splitSlash : List Char → List (List Char)
  | [] => [[]]
  | c :: cs =>
    if c = '/' then [] :: splitSlash cs
    else
      match splitSlash cs with
      | seg :: rest => (c :: seg) :: rest
      | [] => [[c]]

/-- The non-empty slash-separated segments of a path string. -/
def pathSegments (p : String) : List String :=
  ((splitSlash p.data).filter (fun seg => seg ≠ [])).map (fun seg => String.mk seg)

/-- Join path segments with "/" (no leading slash). -/
def joinSeg : List String → String
  | [] => ""
  | [s] => s
  | s :: s' :: rest => s ++ "/" ++ joinSeg (s' :: rest)

/-- Drop the longest common leading run of two segment lists, returning both
remainders. -/
def dropCommon : List String → List String → List String × List String
  | a :: as, b :: bs => if a = b then dropCommon as bs else (a :: as, b :: bs)
  | as, bs => (as, bs)

/-- Model of Go `filepath.Rel base targ` (and Node `path.relative`) for
absolute slash-separated paths: after removing the common prefix, one ".."
per remaining base segment, then the remaining target segments. -/
def relPath (base targ : String) : String :=
  let p := dropCommon (pathSegments base) (pathSegments targ)
  if p.1 = [] then
    if p.2 = [] then "." else joinSeg p.2
  else
    joinSeg (List.replicate p.1.length ".." ++ p.2)

/-- Model of Go `filepath.Dir` on an absolute slash path: all but the last
segment, with the leading slash restored. -/
def dirName (p : String) : String :=
  "/" ++ joinSeg (pathSegments p).dropLast

/-- Model of Go `filepath.Base` on an absolute slash path: the last segment,
or "/" for the root itself. -/
def baseName (p : String) : String :=
  ((pathSegments p).getLast?).getD "/"

/-- Boolean infix test on lists (model of Go `strings.Contains` at the
character level). -/
def isInfixB (l₁ l₂ : List Char) : Bool :=
  l₁.isPrefixOf l₂ ||
    match l₂ with
    | [] => false
    | _ :: t => isInfixB l₁ t

/-- Model of Go `strings.Contains s sub`. -/
def containsSubstr (s sub : String) : Bool :=
  isInfixB sub.data s.data

/-- Model of Go `strings.HasSuffix` / JS `String.prototype.endsWith`. -/
def hasSuffixStr (s suffix : String) : Bool :=
  suffix.data.isSuffixOf s.data

/-- Model of Go `strings.HasPrefix s pre` / JS `s.startsWith(pre)`. -/
def hasPrefixStr (s pre : String) : Bool :=
  pre.data.isPrefixOf s.data

-- Sanity checks that the path model evaluates as the libraries do.
example : pathSegments "/repo/app1/core" = ["repo", "app1", "core"] := by decide
example : relPath "/foo" "/foo-bar" = "../foo-bar" := by decide
example : relPath "/repo/app1" "/repo/app1/core" = "core" := by decide
example : dirName "/repo/app1/core/pom.xml" = "/repo/app1/core" := by decide
example : baseName "/repo/app1/core" = "core" := by decide
example : containsSubstr "orders-EJB.jar" "EJB" = true := by decide
example : hasSuffixStr "webapp.war" ".war" = true := by decide

/-! ## Configuration model (Go implementation, `internal/config/config.go`)

Go maps are modelled as association lists consulted through `List.lookup`;
map iteration (whose order Go leaves unspecified) is modelled as iteration
over the list.  The `repoRoot` field is the `Config.RepoRoot` field that the
Go builder in `build.js` reads (`b.projectInfo.Config.RepoRoot`); the
detector variant carries its own `repoRoot` in `GoModuleInfo`.
-/

/-- `ProjectConfig` of `internal/config/config.go`, restricted to the fields
the decision engine reads. -/
structure GoProjectConfig where
  basePath : String
  defaultProfile : String
  availableProfiles : List String
  profileOverrides : List (String × List String)
  skipTests : Bool
  modules : List (String × String)
  repoRoot : String
  deriving DecidableEq

/-- `RestartPattern` of `config.go` (`match`, `severity`, `reason`); the
`match` field is named `matchExpr` because `match` is reserved in Lean. -/
structure RestartPattern where
  matchExpr : String
  severity : String
  reason : String
  deriving DecidableEq

/-- `RestartRules` of `config.go`. -/
structure RestartRules where
  globalModule : Bool
  patterns : List RestartPattern
  deriving DecidableEq

/-- `GetModuleDeploymentPath` of `config.go`: returns
`(path, isGlobal, exists)` for a module name looked up in the project's
module map. -/
def GetModuleDeploymentPath (p : GoProjectConfig) (moduleName : String) :
    String × Bool × Bool :=
  match List.lookup moduleName p.modules with
  | none => ("", false, false)
  | some path => if path = "" then ("", false, true) else (path, true, true)

/-- `GetProfileArgs` of `config.go`: Maven `-P` arguments for a requested
profile, consulting `profileOverrides` (with `""` as the empty-profile key)
and falling back to `defaultProfile` and then to no flags. -/
def GetProfileArgs (p : GoProjectConfig) (profile : String) : List String :=
  if profile = "" then
    match List.lookup "" p.profileOverrides with
    | some overrides => overrides.map (fun prof => "-P" ++ prof)
    | none =>
      if p.defaultProfile ≠ "" then ["-P" ++ p.defaultProfile] else []
  else
    match List.lookup profile p.profileOverrides with
    | some overrides => overrides.map (fun prof => "-P" ++ prof)
    | none => ["-P" ++ profile]

/-! ## Detector (Go implementation, `internal/detector/detector.go`) -/

/-- `PomXML` of `detector.go`: the fields `encoding/xml` extracts; a missing
element unmarshals to the empty string. -/
structure PomXML where
  artifactId : String
  packaging : String
  deriving DecidableEq

/-- The classification fields of `detector.go`'s `ProjectInfo` that
`detectModule` fills in. -/
structure GoModuleInfo where
  moduleName : String
  modulePath : String
  repoRoot : String
  packaging : String
  deploymentPath : String
  isGlobalModule : Bool
  deriving DecidableEq

/-- The error message `detectModule` formats for a module that is absent from
the project's module map (its remediation hint included). -/
def moduleNotConfiguredMsg (moduleName projectName : String) : String :=
  "module '" ++ moduleName ++ "' is not configured in config.yaml\n\nPlease add it to the 'modules' section for project '"
    ++ projectName ++ "':\n  modules:\n    " ++ moduleName
    ++ ": \"\"  # for normal deployment\n    # or\n    " ++ moduleName
    ++ ": \"modules/path/main\"  # for global module"

/-- `detectModule` of `detector.go`, given the parsed POM and the result of
the `hasParentPom` filesystem probe on the project's base path.  The module
name is the base name of the module directory (the source comments "Use
folder name instead of artifactId"); packaging defaults to "jar"; the module
map decides deployment kind, and an unmapped module is an error carrying a
remediation hint. -/
def detectModuleGo (cfg : GoProjectConfig) (projectName : String)
    (basePathHasPom : Bool) (pomPath : String) (pom : PomXML) :
    Except String GoModuleInfo :=
  let modulePath := dirName pomPath
  let moduleName := baseName modulePath
  let packaging := if pom.packaging = "" then "jar" else pom.packaging
  let repoRoot := if basePathHasPom then cfg.basePath else modulePath
  match GetModuleDeploymentPath cfg moduleName with
  | (_, _, false) => .error (moduleNotConfiguredMsg moduleName projectName)
  | (deploymentPath, isGlobal, true) =>
    .ok { moduleName, modulePath, repoRoot, packaging, deploymentPath,
          isGlobalModule := isGlobal }

/-- The base-path test of `DetectProject` in `detector.go`: `filepath.Rel`
from the base path, matching when the relative path neither starts with
".." nor is absolute. -/
def goPathMatches (basePath cwd : String) : Bool :=
  let rel := relPath basePath cwd
  !(hasPrefixStr rel "..") && !(hasPrefixStr rel "/")

/-- The project-matching loop of `DetectProject` in `detector.go` (the part
before module detection): the first configured project whose base path
matches the working directory. -/
def DetectProjectMatchGo (projects : List (String × GoProjectConfig))
    (cwd : String) : Option (String × GoProjectConfig) :=
  projects.find? (fun pc => goPathMatches pc.2.basePath cwd)

/-- `findPomXML` of `detector.go` over a directory given as its segment list
(the root directory is `[]`), with the `os.Stat` probe as an oracle; returns
the found directory (as segments) and the number of parent steps taken.
The source checks the current directory, steps to the parent, and stops only
after the root itself has been checked. -/
def findPomXMLGo (hasPom : List String → Bool) (dir : List String) :
    Option (List String) × Nat :=
  if hasPom dir then (some dir, 0)
  else
    match dir with
    | [] => (none, 0)
    | d :: ds =>
      let r := findPomXMLGo hasPom (d :: ds).dropLast
      (r.1, r.2 + 1)
termination_by dir.length
decreasing_by simp [List.length_dropLast]

/-- `GetBuildCommand` of `detector.go`: multi-module when the detected repo
root differs from the module path (`-pl` with the relative module path and
`-am` from the repo root), otherwise `install` for jar packaging and
`package` for everything else; profile arguments and `-DskipTests`
appended.  (`filepath.Rel`'s error branch is dead here because `relPath` is
total.) -/
def GetBuildCommandDet (info : GoModuleInfo) (cfg : GoProjectConfig)
    (profile : String) : List String :=
  let args := ["mvn", "clean"]
  let args :=
    if info.repoRoot ≠ info.modulePath then
      args ++ ["package", "-pl", relPath info.repoRoot info.modulePath, "-am"]
    else if info.packaging = "jar" then args ++ ["install"]
    else args ++ ["package"]
  let args := args ++ GetProfileArgs cfg profile
  if cfg.skipTests then args ++ ["-DskipTests"] else args

/-! ## Builder (Go implementation embedded in `build.js`) -/

/-- `isValidProfile` of the Go builder: every profile is valid when the
project declares no available profiles, otherwise membership. -/
def isValidProfile (cfg : GoProjectConfig) (profile : String) : Bool :=
  if cfg.availableProfiles.isEmpty then true
  else cfg.availableProfiles.contains profile

/-- `getBuildCommand` of the Go builder: multi-module when
`Config.RepoRoot` is set and differs from the module path. -/
def getBuildCommand (cfg : GoProjectConfig) (modulePath packaging profile : String) :
    List String :=
  let cmd := ["mvn", "clean"]
  let cmd :=
    if cfg.repoRoot ≠ "" ∧ cfg.repoRoot ≠ modulePath then
      cmd ++ ["package", "-pl", relPath cfg.repoRoot modulePath, "-am"]
    else if packaging = "jar" then cmd ++ ["install"]
    else cmd ++ ["package"]
  let cmd := cmd ++ GetProfileArgs cfg profile
  if cfg.skipTests then cmd ++ ["-DskipTests"] else cmd

/-- `getInstallCommand` of the Go builder: the follow-up install for
multi-module jars, tests skipped. -/
def getInstallCommand (cfg : GoProjectConfig) (modulePath : String) : List String :=
  ["mvn", "install", "-pl", relPath cfg.repoRoot modulePath, "-DskipTests"]

/-- `Build` of the Go builder, with user confirmation and Maven execution as
oracles: returns the ordered list of Maven invocations actually executed and
the outcome.  Profile validation happens first; the install command runs
only when the package command succeeded and `Config.RepoRoot` is set with
jar packaging. -/
def BuildGo (cfg : GoProjectConfig) (projectName modulePath packaging profile : String)
    (confirmed : Bool) (exec : List String → Bool) :
    List (List String) × Except String Unit :=
  if profile ≠ "" ∧ isValidProfile cfg profile = false then
    ([], .error ("invalid profile '" ++ profile ++ "' for project " ++ projectName))
  else
    let buildCmd := getBuildCommand cfg modulePath packaging profile
    if confirmed = false then ([], .ok ())
    else if exec buildCmd = false then ([buildCmd], .error "build failed")
    else if cfg.repoRoot ≠ "" ∧ packaging = "jar" then
      let installCmd := getInstallCommand cfg modulePath
      if exec installCmd = false then
        ([buildCmd, installCmd], .error "install failed")
      else ([buildCmd, installCmd], .ok ())
    else ([buildCmd], .ok ())

/-! ## Restart severity engine (Go builder in `build.js`)

`regexp.MatchString` is an external library call, passed in as an oracle
`re : String → String → Option Bool` where `none` models a compile error of
the pattern and `some b` a successful match test.
-/

/-- `fallbackRestartCheck` of the Go builder: the heuristic used when no
restart rules are configured. -/
def fallbackRestartCheck (isGlobalModule : Bool) (artifactName : String) :
    String × String :=
  if isGlobalModule then ("required", "Global module modification")
  else if hasSuffixStr artifactName ".jar" ∧ containsSubstr artifactName "EJB" then
    ("recommended", "EJB implementation JAR")
  else if hasSuffixStr artifactName ".war" then ("none", "WAR hot-deployment")
  else ("recommended", "Standard deployment (restart to ensure changes are loaded)")

/-- The pattern loop of `determineRestartRequirement`: first pattern whose
expression matches, skipping patterns whose expression fails to compile. -/
def findRestartMatch (re : String → String → Option Bool)
    (artifactName : String) : List RestartPattern → Option RestartPattern
  | [] => none
  | p :: ps =>
    match re p.matchExpr artifactName with
    | none => findRestartMatch re artifactName ps
    | some true => some p
    | some false => findRestartMatch re artifactName ps

/-- `determineRestartRequirement` of the Go builder: the ordered restart
rule table (global-module override, fallback when no patterns, first
matching pattern, war/standard default). -/
def determineRestartRequirement (re : String → String → Option Bool)
    (restartRules : Option RestartRules) (isGlobalModule : Bool)
    (artifactName : String) : String × String :=
  if isGlobalModule ∧ (match restartRules with
      | some r => r.globalModule
      | none => false) = true then
    ("required", "Global module modification")
  else
    match restartRules with
    | none => fallbackRestartCheck isGlobalModule artifactName
    | some rules =>
      if rules.patterns = [] then fallbackRestartCheck isGlobalModule artifactName
      else
        match findRestartMatch re artifactName rules.patterns with
        | some p => (p.severity, p.reason)
        | none =>
          if hasSuffixStr artifactName ".war" then ("none", "WAR hot-deployment")
          else ("recommended", "Standard deployment (restart to ensure changes are loaded)")

/-! ## JavaScript implementation (`src/detector.js`, `src/builder.js`)

JavaScript falsiness of an optional string (`undefined` or `""`) is modelled
with `Option String`; `jsStringOr` is the `a || b` idiom on such values.
-/

/-- The fields of a project entry in the JS `config.yaml` document that the
decision engine reads (optional fields model properties that may be absent). -/
structure JsProjectConfig where
  base_path : String
  default_profile : Option String
  available_profiles : Option (List String)
  profile_overrides : Option (List (String × List String))
  skip_tests : Option Bool
  modules : Option (List (String × String))
  deriving DecidableEq

/-- The `<modules>` element as `fast-xml-parser` surfaces it: absent, a
single string (one `<module>` child), or an array. -/
inductive JsModulesField where
  | absent : JsModulesField
  | single : String → JsModulesField
  | arr : List String → JsModulesField
  deriving DecidableEq

/-- The POM fields the JS detector reads (`pom.project?.artifactId`,
`pom.project?.packaging`, `pom.project?.modules?.module`). -/
structure JsPom where
  artifactId : Option String
  packaging : Option String
  modules : JsModulesField
  deriving DecidableEq

/-- The module-information object `detectModule` of the JS detector returns. -/
structure JsModuleInfo where
  artifactId : String
  packaging : String
  path : String
  relativePath : String
  isGlobalModule : Bool
  deploymentPath : String
  isMultiModule : Bool
  modules : List String
  deriving DecidableEq

/-- The JS `a || b` idiom on an optional string: `b` when `a` is absent or
empty (falsy), the string itself otherwise. -/
def jsStringOr (a : Option String) (b : String) : String :=
  match a with
  | some s => if s = "" then b else s
  | none => b

/-- `detectModule` of the JS detector (`unnamed/part_000`): requires a
truthy `artifactId`, defaults packaging to "jar", classifies through
`projectConfig.modules?.[artifactId]` with JS truthiness (`moduleConfig &&
moduleConfig !== ''`), and normalizes the aggregator module list. -/
def detectModuleJs (pomPath : String) (pom : JsPom) (cfg : JsProjectConfig) :
    Except String JsModuleInfo :=
  match pom.artifactId with
  | none => .error "artifactId not found in pom.xml"
  | some artifactId =>
    if artifactId = "" then .error "artifactId not found in pom.xml"
    else
      let packaging := jsStringOr pom.packaging "jar"
      let modulePath := dirName pomPath
      let relativePath := relPath cfg.base_path modulePath
      let moduleConfig := cfg.modules.bind (fun ms => List.lookup artifactId ms)
      let isGlobalModule :=
        match moduleConfig with
        | some v => v ≠ ""
        | none => false
      let mods : List String × Bool :=
        match pom.modules with
        | .absent => ([], false)
        | .single s => (if s = "" then [] else [s], s ≠ "")
        | .arr ms => (if ms.isEmpty then [] else ms, !ms.isEmpty)
      .ok { artifactId, packaging, path := modulePath, relativePath,
            isGlobalModule, deploymentPath := moduleConfig.getD "",
            isMultiModule := mods.2, modules := mods.1 }

/-- The project-matching loop of `detectProject` in the JS detector: the
first configured project whose `base_path` is a textual prefix
(`String.prototype.startsWith`) of the current path. -/
def detectProjectMatchJs (projects : List (String × JsProjectConfig))
    (currentPath : String) : Option (String × JsProjectConfig) :=
  projects.find? (fun pc => hasPrefixStr currentPath pc.2.base_path)

/-- `findPomXml` of the JS detector over a directory given as its segment
list (the filesystem root is `[]`), with `fs.existsSync` as an oracle;
returns the found directory and the number of parent steps taken.  The
source loops `while (currentDir !== rootDir)`, so the root directory itself
is never checked. -/
def findPomXmlJs (hasPom : List String → Bool) (dir : List String) :
    Option (List String) × Nat :=
  match dir with
  | [] => (none, 0)
  | d :: ds =>
    if hasPom (d :: ds) then (some (d :: ds), 0)
    else
      let r := findPomXmlJs hasPom (d :: ds).dropLast
      (r.1, r.2 + 1)
termination_by dir.length
decreasing_by simp [List.length_dropLast]

/-- `getProfiles` of the JS builder: empty and the sentinel "none" yield no
profiles with no validation; otherwise a profile outside a non-empty
`available_profiles` throws with a message enumerating the available set,
and `profile_overrides` may expand the profile. -/
def getProfiles (profile : String) (cfg : JsProjectConfig) :
    Except String (List String) :=
  if profile = "" ∨ profile = "none" then .ok []
  else
    let available := cfg.available_profiles.getD []
    if available.length > 0 ∧ available.contains profile = false then
      .error ("Profile '" ++ profile ++ "' not available. Available: "
        ++ String.intercalate ", " available)
    else
      match cfg.profile_overrides.bind (fun ov => List.lookup profile ov) with
      | some mapped => .ok mapped
      | none => .ok [profile]

/-- `buildMavenCommand` of the JS builder: always phase `install`; a single
`-P` flag with the comma-joined profiles; `-DskipTests=true` when tests are
skipped; `-pl <artifactId> -am` for multi-module builds. -/
def buildMavenCommand (moduleInfo : JsModuleInfo) (profile : String)
    (skipTests : Bool) (cfg : JsProjectConfig) : Except String (List String) :=
  match getProfiles profile cfg with
  | .error e => .error e
  | .ok profiles =>
    let args := ["install"]
    let args :=
      if profiles.length > 0 then args ++ ["-P", String.intercalate "," profiles]
      else args
    let args := if skipTests then args ++ ["-DskipTests=true"] else args
    let args :=
      if moduleInfo.isMultiModule then args ++ ["-pl", moduleInfo.artifactId, "-am"]
      else args
    .ok args

/-- The effective profile `buildModule` of the JS builder computes:
`profile || projectConfig.default_profile || 'none'`. -/
def effectiveProfileJs (profile : Option String) (cfg : JsProjectConfig) : String :=
  jsStringOr profile (jsStringOr cfg.default_profile "none")

/-- The skip-tests flag `buildModule` computes:
`options.skipTests || projectConfig.skip_tests || false`. -/
def skipTestsJs (optSkip : Option Bool) (cfg : JsProjectConfig) : Bool :=
  optSkip.getD false || cfg.skip_tests.getD false

/-- The single Maven invocation `buildModule` of the JS builder synthesizes
(the JS builder executes exactly one `mvn` command per build). -/
def buildModuleCmd (moduleInfo : JsModuleInfo) (profile : Option String)
    (optSkip : Option Bool) (cfg : JsProjectConfig) : Except String (List String) :=
  buildMavenCommand moduleInfo (effectiveProfileJs profile cfg)
    (skipTestsJs optSkip cfg) cfg

/-! ## Supporting lemmas -/

/-- The restart-pattern loop is first-match with malformed expressions
skipped: it equals `List.find?` over successful matches. -/
theorem findRestartMatch_eq_find (re : String → String → Option Bool)
    (name : String) :
    ∀ ps : List RestartPattern,
      findRestartMatch re name ps =
        ps.find? (fun p => re p.matchExpr name == some true)
  | [] => rfl
  | p :: ps => by
    cases h : re p.matchExpr name with
    | none =>
      simp [findRestartMatch, h, List.find?, findRestartMatch_eq_find re name ps]
    | some b =>
      cases b <;>
        simp [findRestartMatch, h, List.find?, findRestartMatch_eq_find re name ps]

/-! ## Claim theorems -/

/-- C2: the Restart Severity Engine follows the ordered rule table: a global
classification under the global-module override yields Required regardless
of the pattern list; an empty pattern list falls back to the heuristic
(global → required, EJB jar → recommended, war → none, else recommended);
otherwise the first pattern whose match expression matches the artifact name
wins, with malformed expressions skipped and never fatal; when no pattern
matches, war-suffixed artifacts yield none and everything else recommended
(standard deployment). -/
theorem C2_restart_engine_rule_table (re : String → String → Option Bool)
    (rules : Option RestartRules) (g : Bool) (name : String) :
    determineRestartRequirement re rules g name =
      if g && (match rules with | some r => r.globalModule | none => false) then
        ("required", "Global module modification")
      else if (match rules with | some r => r.patterns | none => []) = [] then
        (if g then ("required", "Global module modification")
         else if hasSuffixStr name ".jar" && containsSubstr name "EJB" then
           ("recommended", "EJB implementation JAR")
         else if hasSuffixStr name ".war" then ("none", "WAR hot-deployment")
         else ("recommended", "Standard deployment (restart to ensure changes are loaded)"))
      else
        match (match rules with | some r => r.patterns | none => []).find?
            (fun p : RestartPattern => re p.matchExpr name == some true) with
        | some p => (p.severity, p.reason)
        | none =>
          if hasSuffixStr name ".war" then ("none", "WAR hot-deployment")
          else ("recommended", "Standard deployment (restart to ensure changes are loaded)") := by
  cases rules with
  | none =>
    cases g <;>
      simp [determineRestartRequirement, fallbackRestartCheck, Bool.and_eq_true]
  | some r =>
    cases g <;> cases hgm : r.globalModule <;>
      simp [determineRestartRequirement, fallbackRestartCheck, hgm,
        findRestartMatch_eq_find, Bool.and_eq_true]

/-- C10: in the JS implementation the profile string "none" — also the
sentinel `buildModule` substitutes when no profile is requested and no
default profile is configured — makes `getProfiles` return an empty profile
list without any validation against `available_profiles`, so a profile
literally named "none" is never passed to the build (no `-P` flag) and never
raises an invalid-profile error. -/
theorem C10_none_profile_sentinel :
    (∀ cfg : JsProjectConfig, getProfiles "none" cfg = .ok []) ∧
    (∀ (mi : JsModuleInfo) (st : Bool) (cfg : JsProjectConfig),
      mi.artifactId ≠ "-P" →
      ∃ args, buildMavenCommand mi "none" st cfg = .ok args ∧ "-P" ∉ args) ∧
    (∀ (p : Option String) (cfg : JsProjectConfig),
      (p = none ∨ p = some "") →
      (cfg.default_profile = none ∨ cfg.default_profile = some "") →
      effectiveProfileJs p cfg = "none") := by
  refine ⟨fun cfg => by simp [getProfiles], ?_, ?_⟩
  · intro mi st cfg h
    refine ⟨["install"] ++ (if st then ["-DskipTests=true"] else [])
        ++ (if mi.isMultiModule then ["-pl", mi.artifactId, "-am"] else []),
      ?_, ?_⟩
    · cases st <;> cases hm : mi.isMultiModule <;>
        simp [buildMavenCommand, getProfiles, hm]
    · cases st <;> cases hm : mi.isMultiModule <;>
        simp [hm, Ne.symm h]
  · intro p cfg hp hd
    rcases hp with hp | hp <;> rcases hd with hd | hd <;>
      simp [effectiveProfileJs, jsStringOr, hp, hd]

/-- A JS project configuration with a non-empty available-profile set not
containing "none", used to witness C10. -/
def c10Cfg : JsProjectConfig :=
  { base_path := "/repo", default_profile := none,
    available_profiles := some ["TEST", "PROD"], profile_overrides := none,
    skip_tests := none, modules := none }

/-- A multi-module JS module-info record used to witness C10. -/
def c10Mi : JsModuleInfo :=
  { artifactId := "core", packaging := "jar", path := "/repo/core",
    relativePath := "core", isGlobalModule := false, deploymentPath := "",
    isMultiModule := true, modules := [] }

/-- Witness for C10 at a configuration whose available profiles are
non-empty and do not contain "none". -/
theorem C10_none_profile_sentinel_witness :
    getProfiles "none" c10Cfg = .ok [] ∧
    (∃ args, buildMavenCommand c10Mi "none" false c10Cfg = .ok args ∧ "-P" ∉ args) ∧
    effectiveProfileJs none c10Cfg = "none" :=
  ⟨C10_none_profile_sentinel.1 c10Cfg,
   C10_none_profile_sentinel.2.1 c10Mi false c10Cfg (by decide),
   C10_none_profile_sentinel.2.2 none c10Cfg (Or.inl rfl) (Or.inl rfl)⟩

instance {ε α : Type} [DecidableEq ε] [DecidableEq α] : DecidableEq (Except ε α) :=
  fun a b =>
    match a, b with
    | .error e, .error f => decidable_of_iff (e = f) (by simp)
    | .ok x, .ok y => decidable_of_iff (x = y) (by simp)
    | .error _, .ok _ => isFalse (fun h => Except.noConfusion h)
    | .ok _, .error _ => isFalse (fun h => Except.noConfusion h)

/-- A JS project configuration mapping the empty profile key to
["dev", "local"], as in the claimed scenario for C5. -/
def c5Cfg : JsProjectConfig :=
  { base_path := "/repo", default_profile := none, available_profiles := none,
    profile_overrides := some [("", ["dev", "local"])], skip_tests := none,
    modules := none }

/-- Counterexample for C5: in the JS implementation an empty requested
profile yields no profile flags even though `profile_overrides` contains the
key "" mapped to ["dev", "local"]; the claimed flag list ["dev", "local"] is
not produced. -/
theorem C5_counterexample :
    getProfiles "" c5Cfg = .ok [] ∧
    getProfiles "" c5Cfg ≠ .ok ["dev", "local"] := by decide

/-- C5 (amended): in the Go implementation an empty requested profile is
resolved exactly as claimed — the override entry for the key "" expands to
one `-P` flag per mapped profile name, otherwise a configured default
profile becomes a single flag, otherwise no flag.  In the JS implementation
`getProfiles` returns no flags for the empty profile unconditionally, so the
empty-key override is never consulted; the empty request is instead replaced
by the default profile (or the sentinel "none") before `getProfiles` runs. -/
theorem C5_empty_profile_resolution :
    (∀ (cfg : GoProjectConfig) (l : List String),
      List.lookup "" cfg.profileOverrides = some l →
      GetProfileArgs cfg "" = l.map (fun prof => "-P" ++ prof)) ∧
    (∀ cfg : GoProjectConfig,
      List.lookup "" cfg.profileOverrides = none → cfg.defaultProfile ≠ "" →
      GetProfileArgs cfg "" = ["-P" ++ cfg.defaultProfile]) ∧
    (∀ cfg : GoProjectConfig,
      List.lookup "" cfg.profileOverrides = none → cfg.defaultProfile = "" →
      GetProfileArgs cfg "" = []) ∧
    (∀ cfg : JsProjectConfig, getProfiles "" cfg = .ok []) ∧
    (∀ (cfg : JsProjectConfig) (d : String),
      cfg.default_profile = some d → d ≠ "" →
      effectiveProfileJs none cfg = d) := by
  refine ⟨?_, ?_, ?_, fun cfg => by simp [getProfiles], ?_⟩
  · intro cfg l h; simp [GetProfileArgs, h]
  · intro cfg h hd; simp [GetProfileArgs, h, hd]
  · intro cfg h hd; simp [GetProfileArgs, h, hd]
  · intro cfg d h hd; simp [effectiveProfileJs, jsStringOr, h, hd]

/-- A Go project configuration with the empty profile key mapped to
["dev", "local"], witnessing the Go half of C5. -/
def c5CfgGo : GoProjectConfig :=
  { basePath := "/repo", defaultProfile := "TEST",
    availableProfiles := [], profileOverrides := [("", ["dev", "local"])],
    skipTests := false, modules := [], repoRoot := "" }

/-- A Go project configuration with no overrides and default profile TEST. -/
def c5CfgGoDefault : GoProjectConfig :=
  { basePath := "/repo", defaultProfile := "TEST", availableProfiles := [],
    profileOverrides := [], skipTests := false, modules := [], repoRoot := "" }

/-- A Go project configuration with no overrides and no default profile. -/
def c5CfgGoBare : GoProjectConfig :=
  { basePath := "/repo", defaultProfile := "", availableProfiles := [],
    profileOverrides := [], skipTests := false, modules := [], repoRoot := "" }

/-- A JS project configuration with default profile TEST. -/
def c5CfgJsDefault : JsProjectConfig :=
  { base_path := "/repo", default_profile := some "TEST",
    available_profiles := none, profile_overrides := none, skip_tests := none,
    modules := none }

/-- Witness for C5 at concrete configurations. -/
theorem C5_empty_profile_resolution_witness :
    GetProfileArgs c5CfgGo "" = ["-Pdev", "-Plocal"] ∧
    GetProfileArgs c5CfgGoDefault "" = ["-PTEST"] ∧
    GetProfileArgs c5CfgGoBare "" = [] ∧
    getProfiles "" c5Cfg = .ok [] ∧
    effectiveProfileJs none c5CfgJsDefault = "TEST" :=
  ⟨C5_empty_profile_resolution.1 c5CfgGo ["dev", "local"] (by decide),
   C5_empty_profile_resolution.2.1 c5CfgGoDefault (by decide) (by decide),
   C5_empty_profile_resolution.2.2.1 c5CfgGoBare (by decide) (by decide),
   C5_empty_profile_resolution.2.2.2.1 c5Cfg,
   C5_empty_profile_resolution.2.2.2.2 c5CfgJsDefault "TEST" (by decide) (by decide)⟩

/-- A Go project configuration whose available profiles are TEST and PROD,
for the C4 counterexample. -/
def c4CfgGo : GoProjectConfig :=
  { basePath := "/repo", defaultProfile := "",
    availableProfiles := ["TEST", "PROD"], profileOverrides := [],
    skipTests := false, modules := [], repoRoot := "" }

/-- A JS project configuration whose available profiles are TEST and PROD,
for the C4 counterexample. -/
def c4CfgJs : JsProjectConfig :=
  { base_path := "/repo", default_profile := none,
    available_profiles := some ["TEST", "PROD"], profile_overrides := none,
    skip_tests := none, modules := none }

/-- Counterexample for C4: the Go builder rejects the out-of-set profile "X"
with a message naming only the profile and the project — it does not
enumerate the available set (it does not even contain the available profile
TEST); and the JS `getProfiles` lets the out-of-set profile "none" through
with no error at all. -/
theorem C4_counterexample :
    BuildGo c4CfgGo "p1" "/repo/m" "jar" "X" true (fun _ => true) =
      ([], .error "invalid profile 'X' for project p1") ∧
    containsSubstr "invalid profile 'X' for project p1" "TEST" = false ∧
    getProfiles "none" c4CfgJs = .ok [] := by decide

/-- C4 (amended): a non-empty requested profile outside a non-empty
available set is rejected, but the error messages differ from the claim —
the Go builder's message names the profile and project without enumerating
the available set, while the JS message does enumerate it; moreover the JS
implementation exempts the sentinel "none" from validation entirely.  A
profile inside the available set always passes validation in both
implementations. -/
theorem C4_profile_validation :
    (∀ (cfg : GoProjectConfig) (pn mp pk p : String) (conf : Bool)
        (exec : List String → Bool),
      p ≠ "" → cfg.availableProfiles.contains p = false →
      cfg.availableProfiles ≠ [] →
      BuildGo cfg pn mp pk p conf exec =
        ([], .error ("invalid profile '" ++ p ++ "' for project " ++ pn))) ∧
    (∀ (cfg : GoProjectConfig) (p : String),
      cfg.availableProfiles.contains p = true → isValidProfile cfg p = true) ∧
    (∀ (cfg : GoProjectConfig) (pn mp pk p : String),
      cfg.availableProfiles.contains p = true →
      (BuildGo cfg pn mp pk p true (fun _ => true)).2 = .ok ()) ∧
    (∀ (cfg : JsProjectConfig) (p : String),
      p ≠ "" → p ≠ "none" →
      (cfg.available_profiles.getD []).contains p = false →
      cfg.available_profiles.getD [] ≠ [] →
      getProfiles p cfg =
        .error ("Profile '" ++ p ++ "' not available. Available: "
          ++ String.intercalate ", " (cfg.available_profiles.getD []))) ∧
    (∀ (cfg : JsProjectConfig) (p : String),
      (cfg.available_profiles.getD []).contains p = true →
      ∃ flags, getProfiles p cfg = .ok flags) := by
  have hvalid : ∀ (cfg : GoProjectConfig) (p : String),
      cfg.availableProfiles.contains p = true → isValidProfile cfg p = true := by
    intro cfg p h
    have hmem : p ∈ cfg.availableProfiles := by simpa using h
    have hne : cfg.availableProfiles.isEmpty = false := by
      cases hl : cfg.availableProfiles with
      | nil => rw [hl] at hmem; simp at hmem
      | cons a as => simp [hl]
    simp [isValidProfile, hne, hmem]
  refine ⟨?_, hvalid, ?_, ?_, ?_⟩
  · intro cfg pn mp pk p conf exec hp hc hne
    have hnm : p ∉ cfg.availableProfiles := by simpa using hc
    have hinv : isValidProfile cfg p = false := by
      have hemp : cfg.availableProfiles.isEmpty = false := by
        cases hl : cfg.availableProfiles with
        | nil => exact absurd hl hne
        | cons a as => simp [hl]
      simp [isValidProfile, hemp, hnm]
    simp [BuildGo, hp, hinv]
  · intro cfg pn mp pk p h
    have hv := hvalid cfg p h
    by_cases hmulti : cfg.repoRoot ≠ "" ∧ pk = "jar" <;>
      simp [BuildGo, hv, hmulti]
  · intro cfg p hp hn hc hne
    have hnm : p ∉ cfg.available_profiles.getD [] := by simpa using hc
    have hlen : 0 < (cfg.available_profiles.getD []).length :=
      List.length_pos.mpr hne
    simp [getProfiles, hp, hn, hnm, hlen]
  · intro cfg p h
    have hmem : p ∈ cfg.available_profiles.getD [] := by simpa using h
    by_cases hp : p = "" ∨ p = "none"
    · exact ⟨[], by simp [getProfiles, hp]⟩
    · push_neg at hp
      cases ho : (cfg.profile_overrides.bind (fun ov => List.lookup p ov)) with
      | none => exact ⟨[p], by simp [getProfiles, hp.1, hp.2, hmem, ho]⟩
      | some mapped => exact ⟨mapped, by simp [getProfiles, hp.1, hp.2, hmem, ho]⟩

/-- Witness for C4 at the TEST/PROD configurations. -/
theorem C4_profile_validation_witness :
    BuildGo c4CfgGo "p1" "/repo/m" "jar" "X" true (fun _ => true) =
      ([], .error ("invalid profile '" ++ "X" ++ "' for project " ++ "p1")) ∧
    isValidProfile c4CfgGo "TEST" = true ∧
    (BuildGo c4CfgGo "p1" "/repo/m" "war" "TEST" true (fun _ => true)).2 = .ok () ∧
    getProfiles "X" c4CfgJs =
      .error ("Profile '" ++ "X" ++ "' not available. Available: "
        ++ String.intercalate ", " (c4CfgJs.available_profiles.getD [])) ∧
    (∃ flags, getProfiles "TEST" c4CfgJs = .ok flags) :=
  ⟨C4_profile_validation.1 c4CfgGo "p1" "/repo/m" "jar" "X" true (fun _ => true)
      (by decide) (by decide) (by decide),
   C4_profile_validation.2.1 c4CfgGo "TEST" (by decide),
   C4_profile_validation.2.2.1 c4CfgGo "p1" "/repo/m" "war" "TEST" (by decide),
   C4_profile_validation.2.2.2.1 c4CfgJs "X" (by decide) (by decide) (by decide)
      (by decide),
   C4_profile_validation.2.2.2.2 c4CfgJs "TEST" (by decide)⟩

/-- Evaluation lemma: `detectModuleGo` on a module present in the module map
returns the classification record (deployment path as mapped, global exactly
when the mapped value is non-empty, module name taken from the directory). -/
theorem detectModuleGo_ok (cfg : GoProjectConfig) (pn : String) (b : Bool)
    (pomPath : String) (pom : PomXML) (v : String)
    (hl : List.lookup (baseName (dirName pomPath)) cfg.modules = some v) :
    detectModuleGo cfg pn b pomPath pom = .ok
      { moduleName := baseName (dirName pomPath),
        modulePath := dirName pomPath,
        repoRoot := if b then cfg.basePath else dirName pomPath,
        packaging := if pom.packaging = "" then "jar" else pom.packaging,
        deploymentPath := v,
        isGlobalModule := decide (v ≠ "") } := by
  by_cases hv : v = "" <;> simp [detectModuleGo, GetModuleDeploymentPath, hl, hv]

/-- Evaluation lemma: `detectModuleGo` on a module absent from the module
map fails with the configuration error message. -/
theorem detectModuleGo_err (cfg : GoProjectConfig) (pn : String) (b : Bool)
    (pomPath : String) (pom : PomXML)
    (hl : List.lookup (baseName (dirName pomPath)) cfg.modules = none) :
    detectModuleGo cfg pn b pomPath pom =
      .error (moduleNotConfiguredMsg (baseName (dirName pomPath)) pn) := by
  simp [detectModuleGo, GetModuleDeploymentPath, hl]

/-- Evaluation lemma: `detectModuleJs` with a truthy artifactId always
succeeds, with deployment kind read from the module map under JS truthiness
(an absent entry and an empty entry are both non-global). -/
theorem detectModuleJs_ok (pomPath : String) (pom : JsPom)
    (cfg : JsProjectConfig) (a : String) (ha : pom.artifactId = some a)
    (haa : a ≠ "") :
    detectModuleJs pomPath pom cfg = .ok
      { artifactId := a,
        packaging := jsStringOr pom.packaging "jar",
        path := dirName pomPath,
        relativePath := relPath cfg.base_path (dirName pomPath),
        isGlobalModule :=
          match cfg.modules.bind (fun ms => List.lookup a ms) with
          | some v => decide (v ≠ "")
          | none => false,
        deploymentPath := (cfg.modules.bind (fun ms => List.lookup a ms)).getD "",
        isMultiModule :=
          (match pom.modules with
            | .absent => (([] : List String), false)
            | .single s => (if s = "" then [] else [s], decide (s ≠ ""))
            | .arr ms => (if ms.isEmpty then [] else ms, !ms.isEmpty)).2,
        modules :=
          (match pom.modules with
            | .absent => (([] : List String), false)
            | .single s => (if s = "" then [] else [s], decide (s ≠ ""))
            | .arr ms => (if ms.isEmpty then [] else ms, !ms.isEmpty)).1 } := by
  simp [detectModuleJs, ha, haa]

/-- The POM of the C1 counterexample: artifactId `core`, jar packaging. -/
def c1Pom : JsPom :=
  { artifactId := some "core", packaging := some "jar", modules := .absent }

/-- A JS project configuration whose module map is empty (no entry for
`core`), for the C1 counterexample. -/
def c1CfgJs : JsProjectConfig :=
  { base_path := "/repo/app1", default_profile := none,
    available_profiles := none, profile_overrides := none, skip_tests := none,
    modules := some [] }

/-- Counterexample for C1: the JS implementation classifies the module
`core` successfully although `core` is absent from the project's module
map — no `UnconfiguredModuleError` is raised; absence silently defaults to
a normal (non-global) deployment. -/
theorem C1_counterexample :
    detectModuleJs "/repo/app1/core/pom.xml" c1Pom c1CfgJs = .ok
      { artifactId := "core", packaging := "jar", path := "/repo/app1/core",
        relativePath := "core", isGlobalModule := false, deploymentPath := "",
        isMultiModule := false, modules := [] } := by decide

/-- C1 (amended): the Go implementation consults the module map exactly as
claimed — an absent module name fails with the configuration error carrying
a remediation hint, an empty mapped value classifies as non-global with
empty deployment path, a non-empty value as global with that deployment
path.  The JS implementation never fails on an absent name: absence behaves
like an empty mapping (non-global, empty deployment path), while a present
value classifies as global exactly when it is non-empty. -/
theorem C1_module_map_classification :
    (∀ (cfg : GoProjectConfig) (m : String),
      List.lookup m cfg.modules = none →
      GetModuleDeploymentPath cfg m = ("", false, false)) ∧
    (∀ (cfg : GoProjectConfig) (m : String),
      List.lookup m cfg.modules = some "" →
      GetModuleDeploymentPath cfg m = ("", false, true)) ∧
    (∀ (cfg : GoProjectConfig) (m v : String),
      List.lookup m cfg.modules = some v → v ≠ "" →
      GetModuleDeploymentPath cfg m = (v, true, true)) ∧
    (∀ (cfg : GoProjectConfig) (pn : String) (b : Bool) (pomPath : String)
        (pom : PomXML),
      List.lookup (baseName (dirName pomPath)) cfg.modules = none →
      detectModuleGo cfg pn b pomPath pom =
        .error (moduleNotConfiguredMsg (baseName (dirName pomPath)) pn)) ∧
    containsSubstr (moduleNotConfiguredMsg "core" "app1")
      "Please add it to the 'modules' section" = true ∧
    (∀ (cfg : GoProjectConfig) (pn : String) (b : Bool) (pomPath v : String)
        (pom : PomXML) (info : GoModuleInfo),
      List.lookup (baseName (dirName pomPath)) cfg.modules = some v →
      detectModuleGo cfg pn b pomPath pom = .ok info →
      info.deploymentPath = v ∧ (info.isGlobalModule = true ↔ v ≠ "")) ∧
    (∀ (pomPath : String) (pom : JsPom) (cfg : JsProjectConfig) (a : String),
      pom.artifactId = some a → a ≠ "" →
      cfg.modules.bind (fun ms => List.lookup a ms) = none →
      ∃ info, detectModuleJs pomPath pom cfg = .ok info ∧
        info.isGlobalModule = false ∧ info.deploymentPath = "") ∧
    (∀ (pomPath : String) (pom : JsPom) (cfg : JsProjectConfig) (a v : String),
      pom.artifactId = some a → a ≠ "" →
      cfg.modules.bind (fun ms => List.lookup a ms) = some v →
      ∃ info, detectModuleJs pomPath pom cfg = .ok info ∧
        (info.isGlobalModule = true ↔ v ≠ "") ∧ info.deploymentPath = v) := by
  refine ⟨?_, ?_, ?_, ?_, by decide, ?_, ?_, ?_⟩
  · intro cfg m h; simp [GetModuleDeploymentPath, h]
  · intro cfg m h; simp [GetModuleDeploymentPath, h]
  · intro cfg m v h hv; simp [GetModuleDeploymentPath, h, hv]
  · intro cfg pn b pomPath pom h; exact detectModuleGo_err cfg pn b pomPath pom h
  · intro cfg pn b pomPath v pom info hl hok
    rw [detectModuleGo_ok cfg pn b pomPath pom v hl] at hok
    obtain rfl : info = _ := (Except.ok.injEq _ _ ▸ hok).symm
    simp
  · intro pomPath pom cfg a ha haa hm
    exact ⟨_, detectModuleJs_ok pomPath pom cfg a ha haa, by simp [hm], by simp [hm]⟩
  · intro pomPath pom cfg a v ha haa hm
    exact ⟨_, detectModuleJs_ok pomPath pom cfg a ha haa, by simp [hm], by simp [hm]⟩

/-- A Go project configuration mapping `core` to normal deployment and
`auth` to a global-module path, witnessing C1. -/
def c1CfgGo : GoProjectConfig :=
  { basePath := "/repo/app1", defaultProfile := "", availableProfiles := [],
    profileOverrides := [], skipTests := false,
    modules := [("core", ""), ("auth", "modules/org/auth/main")],
    repoRoot := "" }

/-- A parsed Go POM used to witness C1. -/
def c1PomGo : PomXML := { artifactId := "core", packaging := "jar" }

/-- The classification the Go detector produces for the `auth` module of
`c1CfgGo`. -/
def c1InfoGo : GoModuleInfo :=
  { moduleName := "auth", modulePath := "/repo/app1/auth",
    repoRoot := "/repo/app1/auth", packaging := "jar",
    deploymentPath := "modules/org/auth/main", isGlobalModule := true }

/-- The JS POM of the `auth` module, witnessing C1. -/
def c1PomAuth : JsPom :=
  { artifactId := some "auth", packaging := none, modules := .absent }

/-- A JS project configuration mapping `auth` to a global-module path,
witnessing C1. -/
def c1CfgJs2 : JsProjectConfig :=
  { base_path := "/repo/app1", default_profile := none,
    available_profiles := none, profile_overrides := none, skip_tests := none,
    modules := some [("auth", "modules/org/auth/main")] }

/-- Witness for C1 at concrete configurations and POMs. -/
theorem C1_module_map_classification_witness :
    GetModuleDeploymentPath c1CfgGo "missing" = ("", false, false) ∧
    GetModuleDeploymentPath c1CfgGo "core" = ("", false, true) ∧
    GetModuleDeploymentPath c1CfgGo "auth" = ("modules/org/auth/main", true, true) ∧
    detectModuleGo c1CfgGo "app1" false "/repo/app1/other/pom.xml" c1PomGo =
      .error (moduleNotConfiguredMsg
        (baseName (dirName "/repo/app1/other/pom.xml")) "app1") ∧
    (c1InfoGo.deploymentPath = "modules/org/auth/main" ∧
      (c1InfoGo.isGlobalModule = true ↔ "modules/org/auth/main" ≠ "")) ∧
    (∃ info, detectModuleJs "/repo/app1/core/pom.xml" c1Pom c1CfgJs = .ok info ∧
      info.isGlobalModule = false ∧ info.deploymentPath = "") ∧
    (∃ info, detectModuleJs "/repo/app1/auth/pom.xml" c1PomAuth c1CfgJs2 = .ok info ∧
      (info.isGlobalModule = true ↔ "modules/org/auth/main" ≠ "") ∧
      info.deploymentPath = "modules/org/auth/main") :=
  ⟨C1_module_map_classification.1 c1CfgGo "missing" (by decide),
   C1_module_map_classification.2.1 c1CfgGo "core" (by decide),
   C1_module_map_classification.2.2.1 c1CfgGo "auth" "modules/org/auth/main"
     (by decide) (by decide),
   C1_module_map_classification.2.2.2.1 c1CfgGo "app1" false
     "/repo/app1/other/pom.xml" c1PomGo (by decide),
   C1_module_map_classification.2.2.2.2.2.1 c1CfgGo "app1" false
     "/repo/app1/auth/pom.xml" "modules/org/auth/main" c1PomGo c1InfoGo
     (by decide) (by decide),
   C1_module_map_classification.2.2.2.2.2.2.1 "/repo/app1/core/pom.xml" c1Pom
     c1CfgJs "core" (by decide) (by decide) (by decide),
   C1_module_map_classification.2.2.2.2.2.2.2 "/repo/app1/auth/pom.xml"
     c1PomAuth c1CfgJs2 "auth" "modules/org/auth/main" (by decide) (by decide)
     (by decide)⟩

/-- A JS POM with no artifactId, for C8. -/
def c8PomNoId : JsPom :=
  { artifactId := none, packaging := some "jar", modules := .absent }

/-- The classification the JS detector produces for `c1Pom` under
`c1CfgJs`, for the C8 witness. -/
def c8InfoJs : JsModuleInfo :=
  { artifactId := "core", packaging := "jar", path := "/repo/app1/core",
    relativePath := "core", isGlobalModule := false, deploymentPath := "",
    isMultiModule := false, modules := [] }

/-- Counterexample for C8: the Go detector names the module after its
directory (`auth`) even though the descriptor declares the artifactId
`core`, so the declared artifactId is not used when present; and the JS
detector fails outright when no artifactId is declared instead of falling
back to the containing directory name (`mymod`). -/
theorem C8_counterexample :
    detectModuleGo c1CfgGo "app1" false "/repo/app1/auth/pom.xml" c1PomGo =
      .ok c1InfoGo ∧
    c1InfoGo.moduleName ≠ "core" ∧
    detectModuleJs "/x/mymod/pom.xml" c8PomNoId c1CfgJs =
      .error "artifactId not found in pom.xml" := by decide

/-- C8 (amended): the two implementations implement two different
module-naming policies, neither of which is artifactId-with-directory-
fallback — the Go detector always uses the directory name containing the
descriptor (ignoring a declared artifactId), while the JS detector always
uses the declared artifactId and fails when it is absent or empty (never
falling back to the directory name). -/
theorem C8_modulename_policy :
    (∀ (cfg : GoProjectConfig) (pn : String) (b : Bool) (pomPath : String)
        (pom : PomXML) (info : GoModuleInfo),
      detectModuleGo cfg pn b pomPath pom = .ok info →
      info.moduleName = baseName (dirName pomPath)) ∧
    (∀ (pomPath : String) (pom : JsPom) (cfg : JsProjectConfig),
      (pom.artifactId = none ∨ pom.artifactId = some "") →
      detectModuleJs pomPath pom cfg = .error "artifactId not found in pom.xml") ∧
    (∀ (pomPath : String) (pom : JsPom) (cfg : JsProjectConfig) (a : String)
        (info : JsModuleInfo),
      pom.artifactId = some a → a ≠ "" →
      detectModuleJs pomPath pom cfg = .ok info → info.artifactId = a) := by
  refine ⟨?_, ?_, ?_⟩
  · intro cfg pn b pomPath pom info hok
    cases hl : List.lookup (baseName (dirName pomPath)) cfg.modules with
    | none =>
      rw [detectModuleGo_err cfg pn b pomPath pom hl] at hok
      exact absurd hok (by simp)
    | some v =>
      rw [detectModuleGo_ok cfg pn b pomPath pom v hl] at hok
      obtain rfl : info = _ := (Except.ok.injEq _ _ ▸ hok).symm
      rfl
  · intro pomPath pom cfg h
    rcases h with h | h <;> simp [detectModuleJs, h]
  · intro pomPath pom cfg a info ha haa hok
    rw [detectModuleJs_ok pomPath pom cfg a ha haa] at hok
    obtain rfl : info = _ := (Except.ok.injEq _ _ ▸ hok).symm
    rfl

/-- Witness for C8 at concrete descriptors. -/
theorem C8_modulename_policy_witness :
    c1InfoGo.moduleName = baseName (dirName "/repo/app1/auth/pom.xml") ∧
    detectModuleJs "/x/mymod/pom.xml" c8PomNoId c1CfgJs =
      .error "artifactId not found in pom.xml" ∧
    c8InfoJs.artifactId = "core" :=
  ⟨C8_modulename_policy.1 c1CfgGo "app1" false "/repo/app1/auth/pom.xml"
     c1PomGo c1InfoGo (by decide),
   C8_modulename_policy.2.1 "/x/mymod/pom.xml" c8PomNoId c1CfgJs
     (Or.inl (by decide)),
   C8_modulename_policy.2.2 "/repo/app1/core/pom.xml" c1Pom c1CfgJs "core"
     c8InfoJs (by decide) (by decide) (by decide)⟩

/-- A list is a boolean prefix of itself followed by anything. -/
theorem isPrefixOf_self_append (l y : List Char) : l.isPrefixOf (l ++ y) = true :=
  List.isPrefixOf_iff_prefix.mpr (List.prefix_append l y)

/-- `dropCommon` consumes the first list entirely exactly when it is a
prefix of the second. -/
theorem dropCommon_fst_eq_nil : ∀ as bs : List String,
    ((dropCommon as bs).1 = []) ↔ as.isPrefixOf bs = true := by
  intro as
  induction as with
  | nil => intro bs; cases bs <;> simp [dropCommon, List.isPrefixOf]
  | cons a as ih =>
    intro bs
    cases bs with
    | nil => simp [dropCommon, List.isPrefixOf]
    | cons b bs =>
      by_cases hab : a = b
      · subst hab; simp [dropCommon, List.isPrefixOf, ih bs]
      · simp [dropCommon, List.isPrefixOf, hab]

/-- A joined segment list starting with ".." has the textual prefix "..". -/
theorem joinSeg_ddot_hasPrefix : ∀ rest : List String,
    hasPrefixStr (joinSeg (".." :: rest)) ".." = true
  | [] => by decide
  | r :: rs => by
    have h : (".." ++ "/" ++ joinSeg (r :: rs)).data
        = "..".data ++ ("/".data ++ (joinSeg (r :: rs)).data) := by
      simp [String.data_append]
    show hasPrefixStr (".." ++ "/" ++ joinSeg (r :: rs)) ".." = true
    unfold hasPrefixStr
    rw [h]
    exact isPrefixOf_self_append _ _

/-- The base-path configuration of the C6 counterexample. -/
def c6Cfg : JsProjectConfig :=
  { base_path := "/foo", default_profile := none, available_profiles := none,
    profile_overrides := none, skip_tests := none, modules := none }

/-- Counterexample for C6: the JS path resolver matches the current
directory "/foo-bar" against the configured base path "/foo" (a textual
`startsWith` false positive), while the Go resolver does not. -/
theorem C6_counterexample :
    detectProjectMatchJs [("p1", c6Cfg)] "/foo-bar" = some ("p1", c6Cfg) ∧
    goPathMatches "/foo" "/foo-bar" = false := by decide

/-- C6 (amended): the Go path resolver performs a segment-wise
equal-or-ancestor test — whenever the base path's segments are not a prefix
of the current directory's segments there is no match, so "/foo-bar" never
matches base "/foo"; the JS resolver instead matches exactly by textual
`startsWith`, which does produce such false positives. -/
theorem C6_path_resolver_matching :
    (∀ base cwd : String,
      (pathSegments base).isPrefixOf (pathSegments cwd) = false →
      goPathMatches base cwd = false) ∧
    (∀ (name : String) (cfg : JsProjectConfig) (cur : String),
      detectProjectMatchJs [(name, cfg)] cur =
        (if hasPrefixStr cur cfg.base_path then some (name, cfg) else none)) := by
  constructor
  · intro base cwd h
    have h1 : (dropCommon (pathSegments base) (pathSegments cwd)).1 ≠ [] := by
      rw [Ne, dropCommon_fst_eq_nil]; simp [h]
    cases hp : (dropCommon (pathSegments base) (pathSegments cwd)).1 with
    | nil => exact absurd hp h1
    | cons x xs =>
      simp [goPathMatches, relPath, hp, List.replicate_succ,
        joinSeg_ddot_hasPrefix]
  · intro name cfg cur
    cases h : hasPrefixStr cur cfg.base_path <;>
      simp [detectProjectMatchJs, List.find?, h]

/-- Witness for C6 at the "/foo" versus "/foo-bar" pair. -/
theorem C6_path_resolver_matching_witness :
    goPathMatches "/foo" "/foo-bar" = false ∧
    detectProjectMatchJs [("p1", c6Cfg)] "/foo-bar" =
      (if hasPrefixStr "/foo-bar" c6Cfg.base_path then some ("p1", c6Cfg)
       else none) :=
  ⟨C6_path_resolver_matching.1 "/foo" "/foo-bar" (by decide),
   C6_path_resolver_matching.2 "p1" c6Cfg "/foo-bar"⟩

/-- A non-multi-module JS war module, for C7. -/
def c7MiWar : JsModuleInfo :=
  { artifactId := "webapp", packaging := "war", path := "/repo/webapp",
    relativePath := "", isGlobalModule := false, deploymentPath := "",
    isMultiModule := false, modules := [] }

/-- An unrestricted JS project configuration, for C7. -/
def c7CfgJs : JsProjectConfig :=
  { base_path := "/repo", default_profile := none, available_profiles := none,
    profile_overrides := none, skip_tests := none, modules := none }

/-- Counterexample for C7: for a non-multi-module war module the JS builder
synthesizes the phase `install`, not the claimed `package` (the JS command
synthesizer never consults the packaging at all). -/
theorem C7_counterexample :
    c7MiWar.packaging = "war" ∧
    buildMavenCommand c7MiWar "" false c7CfgJs = .ok ["install"] ∧
    "package" ∉ (["install"] : List String) := by decide

/-- C7 (amended): both Go build-command synthesizers choose the phase
`install` for jar packaging and `package` otherwise on non-multi-module
classifications, as claimed; the JS synthesizer instead always emits the
phase `install` regardless of packaging. -/
theorem C7_single_module_phase :
    (∀ (info : GoModuleInfo) (cfg : GoProjectConfig) (profile : String),
      info.repoRoot = info.modulePath →
      ∃ rest, GetBuildCommandDet info cfg profile =
        "mvn" :: "clean" ::
          (if info.packaging = "jar" then "install" else "package") :: rest) ∧
    (∀ (cfg : GoProjectConfig) (modulePath packaging profile : String),
      cfg.repoRoot = "" ∨ cfg.repoRoot = modulePath →
      ∃ rest, getBuildCommand cfg modulePath packaging profile =
        "mvn" :: "clean" ::
          (if packaging = "jar" then "install" else "package") :: rest) ∧
    (∀ (mi : JsModuleInfo) (p : String) (st : Bool) (cfg : JsProjectConfig)
        (args : List String),
      buildMavenCommand mi p st cfg = .ok args → args[0]? = some "install") := by
  refine ⟨?_, ?_, ?_⟩
  · intro info cfg profile h
    refine ⟨GetProfileArgs cfg profile
        ++ (if cfg.skipTests then ["-DskipTests"] else []), ?_⟩
    by_cases hp : info.packaging = "jar" <;> cases hs : cfg.skipTests <;>
      simp [GetBuildCommandDet, h, hp, hs]
  · intro cfg modulePath packaging profile h
    have hcond : ¬(cfg.repoRoot ≠ "" ∧ cfg.repoRoot ≠ modulePath) := by
      rcases h with h | h <;> simp [h]
    refine ⟨GetProfileArgs cfg profile
        ++ (if cfg.skipTests then ["-DskipTests"] else []), ?_⟩
    by_cases hp : packaging = "jar" <;> cases hs : cfg.skipTests <;>
      simp [getBuildCommand, hcond, hp, hs]
  · intro mi p st cfg args hok
    cases hg : getProfiles p cfg with
    | error e => simp [buildMavenCommand, hg] at hok
    | ok profiles =>
      simp [buildMavenCommand, hg] at hok
      rw [← hok]
      by_cases hl : profiles.length > 0 <;> cases hst : st <;>
        cases hmm : mi.isMultiModule <;> simp [hl, hst, hmm]

/-- A Go classification of a non-multi-module war module, for the C7
witness. -/
def c7InfoGo : GoModuleInfo :=
  { moduleName := "webapp", modulePath := "/repo/webapp",
    repoRoot := "/repo/webapp", packaging := "war", deploymentPath := "",
    isGlobalModule := false }

/-- A Go project configuration with no repo root, for the C7 witness. -/
def c7CfgGo : GoProjectConfig :=
  { basePath := "/repo", defaultProfile := "", availableProfiles := [],
    profileOverrides := [], skipTests := false, modules := [], repoRoot := "" }

/-- Witness for C7 at concrete war-packaged modules. -/
theorem C7_single_module_phase_witness :
    (∃ rest, GetBuildCommandDet c7InfoGo c7CfgGo "" =
      "mvn" :: "clean" ::
        (if c7InfoGo.packaging = "jar" then "install" else "package") :: rest) ∧
    (∃ rest, getBuildCommand c7CfgGo "/repo/webapp" "war" "" =
      "mvn" :: "clean" ::
        (if "war" = "jar" then "install" else "package") :: rest) ∧
    (["install"] : List String)[0]? = some "install" :=
  ⟨C7_single_module_phase.1 c7InfoGo c7CfgGo "" (by decide),
   C7_single_module_phase.2.1 c7CfgGo "/repo/webapp" "war" "" (Or.inl (by decide)),
   C7_single_module_phase.2.2 c7MiWar "" false c7CfgJs ["install"] (by decide)⟩

/-- A multi-module JS jar module, for C3. -/
def c3Mi : JsModuleInfo :=
  { artifactId := "core", packaging := "jar", path := "/repo/root/core",
    relativePath := "core", isGlobalModule := false, deploymentPath := "",
    isMultiModule := true, modules := [] }

/-- Counterexample for C3: for a multi-module build the JS synthesizer emits
phase `install` (with `-pl` on the artifactId), not the claimed `package`,
and emits no second command. -/
theorem C3_counterexample :
    buildMavenCommand c3Mi "" false c7CfgJs = .ok ["install", "-pl", "core", "-am"] ∧
    "package" ∉ (["install", "-pl", "core", "-am"] : List String) := by decide

/-- C3 (amended): the Go builder behaves as claimed — a multi-module
classification (repo root set and different from the module path) yields
`mvn clean package -pl <relative path> -am`, and for jar packaging a
second, distinct `mvn install -pl <relative path> -DskipTests` command that
is executed only after the package command succeeds.  The JS builder
instead emits a single command whose phase is `install`, with the module
selector set to the artifactId, and never a second command. -/
theorem C3_multimodule_build_commands :
    (∀ (cfg : GoProjectConfig) (modulePath packaging profile : String),
      cfg.repoRoot ≠ "" → cfg.repoRoot ≠ modulePath →
      getBuildCommand cfg modulePath packaging profile =
        ["mvn", "clean", "package", "-pl", relPath cfg.repoRoot modulePath, "-am"]
          ++ GetProfileArgs cfg profile
          ++ (if cfg.skipTests then ["-DskipTests"] else [])) ∧
    (∀ (cfg : GoProjectConfig) (pn modulePath profile : String)
        (exec : List String → Bool),
      cfg.repoRoot ≠ "" → cfg.repoRoot ≠ modulePath →
      (profile = "" ∨ isValidProfile cfg profile = true) →
      exec (getBuildCommand cfg modulePath "jar" profile) = true →
      BuildGo cfg pn modulePath "jar" profile true exec =
        ([getBuildCommand cfg modulePath "jar" profile,
          getInstallCommand cfg modulePath],
         if exec (getInstallCommand cfg modulePath) then .ok ()
         else .error "install failed") ∧
      getInstallCommand cfg modulePath =
        ["mvn", "install", "-pl", relPath cfg.repoRoot modulePath, "-DskipTests"] ∧
      getBuildCommand cfg modulePath "jar" profile ≠
        getInstallCommand cfg modulePath) ∧
    (∀ (cfg : GoProjectConfig) (pn modulePath profile : String)
        (exec : List String → Bool),
      (profile = "" ∨ isValidProfile cfg profile = true) →
      exec (getBuildCommand cfg modulePath "jar" profile) = false →
      BuildGo cfg pn modulePath "jar" profile true exec =
        ([getBuildCommand cfg modulePath "jar" profile], .error "build failed")) ∧
    (∀ (mi : JsModuleInfo) (p : String) (st : Bool) (cfg : JsProjectConfig)
        (args : List String),
      mi.isMultiModule = true →
      buildMavenCommand mi p st cfg = .ok args →
      ∃ mid, args = "install" :: (mid ++ ["-pl", mi.artifactId, "-am"])) := by
  have goCmd : ∀ (cfg : GoProjectConfig) (modulePath packaging profile : String),
      cfg.repoRoot ≠ "" → cfg.repoRoot ≠ modulePath →
      getBuildCommand cfg modulePath packaging profile =
        ["mvn", "clean", "package", "-pl", relPath cfg.repoRoot modulePath, "-am"]
          ++ GetProfileArgs cfg profile
          ++ (if cfg.skipTests then ["-DskipTests"] else []) := by
    intro cfg modulePath packaging profile h1 h2
    have hcond : cfg.repoRoot ≠ "" ∧ cfg.repoRoot ≠ modulePath := ⟨h1, h2⟩
    cases hs : cfg.skipTests <;> simp [getBuildCommand, hcond, hs]
  refine ⟨goCmd, ?_, ?_, ?_⟩
  · intro cfg pn modulePath profile exec h1 h2 hvp hexec
    have hval : ¬(profile ≠ "" ∧ isValidProfile cfg profile = false) := by
      rcases hvp with h | h <;> simp [h]
    refine ⟨?_, rfl, ?_⟩
    · cases hei : exec (getInstallCommand cfg modulePath) <;>
        simp [BuildGo, hval, hexec, h1, hei]
    · intro heq
      have hidx := congrArg (fun l => l[1]?) heq
      rw [goCmd cfg modulePath "jar" profile h1 h2] at hidx
      simp [getInstallCommand] at hidx
  · intro cfg pn modulePath profile exec hvp hexec
    have hval : ¬(profile ≠ "" ∧ isValidProfile cfg profile = false) := by
      rcases hvp with h | h <;> simp [h]
    simp [BuildGo, hval, hexec]
  · intro mi p st cfg args hmm hok
    cases hg : getProfiles p cfg with
    | error e => simp [buildMavenCommand, hg] at hok
    | ok profiles =>
      simp [buildMavenCommand, hg, hmm] at hok
      refine ⟨(if profiles.length > 0
          then ["-P", String.intercalate "," profiles] else [])
          ++ (if st then ["-DskipTests=true"] else []), ?_⟩
      rw [← hok]
      by_cases hl : profiles.length > 0 <;> cases hst : st <;> simp [hl, hst]

/-- A Go configuration whose repo root is "/repo/root", for the C3 witness. -/
def c3CfgGo : GoProjectConfig :=
  { basePath := "/repo/root", defaultProfile := "", availableProfiles := [],
    profileOverrides := [], skipTests := false, modules := [],
    repoRoot := "/repo/root" }

/-- Witness for C3 at a concrete multi-module jar build. -/
theorem C3_multimodule_build_commands_witness :
    getBuildCommand c3CfgGo "/repo/root/core" "jar" "" =
      ["mvn", "clean", "package", "-pl", relPath "/repo/root" "/repo/root/core",
        "-am"] ++ GetProfileArgs c3CfgGo ""
        ++ (if c3CfgGo.skipTests then ["-DskipTests"] else []) ∧
    (BuildGo c3CfgGo "p1" "/repo/root/core" "jar" "" true (fun _ => true) =
      ([getBuildCommand c3CfgGo "/repo/root/core" "jar" "",
        getInstallCommand c3CfgGo "/repo/root/core"],
       if (fun _ => true) (getInstallCommand c3CfgGo "/repo/root/core") then .ok ()
       else .error "install failed") ∧
      getInstallCommand c3CfgGo "/repo/root/core" =
        ["mvn", "install", "-pl", relPath "/repo/root" "/repo/root/core",
          "-DskipTests"] ∧
      getBuildCommand c3CfgGo "/repo/root/core" "jar" "" ≠
        getInstallCommand c3CfgGo "/repo/root/core") ∧
    BuildGo c3CfgGo "p1" "/repo/root/core" "jar" "" true (fun _ => false) =
      ([getBuildCommand c3CfgGo "/repo/root/core" "jar" ""],
       .error "build failed") ∧
    (∃ mid, (["install", "-pl", "core", "-am"] : List String) =
      "install" :: (mid ++ ["-pl", c3Mi.artifactId, "-am"])) :=
  ⟨C3_multimodule_build_commands.1 c3CfgGo "/repo/root/core" "jar" ""
     (by decide) (by decide),
   C3_multimodule_build_commands.2.1 c3CfgGo "p1" "/repo/root/core" ""
     (fun _ => true) (by decide) (by decide) (Or.inl rfl) rfl,
   C3_multimodule_build_commands.2.2.1 c3CfgGo "p1" "/repo/root/core" ""
     (fun _ => false) (Or.inl rfl) rfl,
   C3_multimodule_build_commands.2.2.2 c3Mi "" false c7CfgJs
     ["install", "-pl", "core", "-am"] (by decide) (by decide)⟩

/-- Taking at most all but the last element commutes with `dropLast`. -/
theorem take_dropLast {α : Type} (l : List α) (k : Nat) (hk : k ≤ l.length - 1) :
    l.dropLast.take k = l.take k := by
  rw [List.dropLast_eq_take, List.take_take, Nat.min_eq_left hk]

/-- The Go descriptor locator returns the ancestor `N` parent-steps up when
that is the nearest directory containing a descriptor, in exactly `N`
steps.  Ancestor `k` of a directory with segments `dir` is
`dir.take (dir.length - k)`. -/
theorem findPomXMLGo_exact (hasPom : List String → Bool) :
    ∀ (N : Nat) (dir : List String), N ≤ dir.length →
      hasPom (dir.take (dir.length - N)) = true →
      (∀ k, k < N → hasPom (dir.take (dir.length - k)) = false) →
      findPomXMLGo hasPom dir = (some (dir.take (dir.length - N)), N) := by
  intro N
  induction N with
  | zero =>
    intro dir _ hp _
    rw [Nat.sub_zero, List.take_length] at hp
    rw [Nat.sub_zero, List.take_length]
    rw [findPomXMLGo.eq_def]
    simp [hp]
  | succ N ih =>
    intro dir hN hp hmin
    have h0 : hasPom dir = false := by
      have := hmin 0 (Nat.succ_pos N)
      rwa [Nat.sub_zero, List.take_length] at this
    cases dir with
    | nil => simp at hN
    | cons d ds =>
      have hlen : (d :: ds).length = ds.length + 1 := by simp
      have harith : (d :: ds).dropLast.length - N = (d :: ds).length - (N + 1) := by
        simp only [List.length_dropLast, List.length_cons]; omega
      have hsub : (d :: ds).length - (N + 1) ≤ (d :: ds).length - 1 := by
        simp only [List.length_cons]; omega
      have hrec := ih (d :: ds).dropLast
        (by simp only [List.length_dropLast, List.length_cons] at hN ⊢; omega)
        (by rw [harith, take_dropLast _ _ hsub]; exact hp)
        (by intro k hk
            have harith2 : (d :: ds).dropLast.length - k
                = (d :: ds).length - (k + 1) := by
              simp only [List.length_dropLast, List.length_cons]; omega
            rw [harith2, take_dropLast _ _
              (by simp only [List.length_cons]; omega)]
            exact hmin (k + 1) (by omega))
      rw [harith, take_dropLast _ _ hsub] at hrec
      rw [findPomXMLGo.eq_def]
      simp [h0, hrec]

/-- When no ancestor up to and including the root contains a descriptor,
the Go locator fails after exactly `depth` parent steps. -/
theorem findPomXMLGo_none (hasPom : List String → Bool) :
    ∀ (n : Nat) (dir : List String), dir.length = n →
      (∀ k, k ≤ dir.length → hasPom (dir.take k) = false) →
      findPomXMLGo hasPom dir = (none, dir.length) := by
  intro n
  induction n with
  | zero =>
    intro dir hlen hall
    have hd : dir = [] := List.length_eq_zero.mp hlen
    subst hd
    have h0 := hall 0 (by simp)
    simp only [List.take_nil] at h0
    rw [findPomXMLGo.eq_def]
    simp [h0]
  | succ n ih =>
    intro dir hlen hall
    have h0 : hasPom dir = false := by
      have := hall dir.length (Nat.le_refl _)
      rwa [List.take_length] at this
    cases dir with
    | nil => simp at hlen
    | cons d ds =>
      have hrec := ih (d :: ds).dropLast
        (by simp only [List.length_dropLast, List.length_cons] at hlen ⊢; omega)
        (by intro k hk
            simp only [List.length_dropLast, List.length_cons] at hk
            rw [take_dropLast _ _ (by simp only [List.length_cons]; omega)]
            exact hall k (by simp only [List.length_cons]; omega))
      rw [findPomXMLGo.eq_def]
      simp only [List.length_dropLast, List.length_cons] at hrec
      simp [h0, hrec]

/-- The Go locator performs at most `depth` parent steps. -/
theorem findPomXMLGo_steps_le (hasPom : List String → Bool) :
    ∀ (n : Nat) (dir : List String), dir.length ≤ n →
      (findPomXMLGo hasPom dir).2 ≤ dir.length := by
  intro n
  induction n with
  | zero =>
    intro dir hlen
    have hd : dir = [] := List.length_eq_zero.mp (Nat.le_zero.mp hlen)
    subst hd
    rw [findPomXMLGo.eq_def]
    cases h : hasPom [] <;> simp [h]
  | succ n ih =>
    intro dir hlen
    cases h : hasPom dir with
    | true => rw [findPomXMLGo.eq_def]; simp [h]
    | false =>
      cases dir with
      | nil => rw [findPomXMLGo.eq_def]; simp [h]
      | cons d ds =>
        have hrec := ih (d :: ds).dropLast
          (by simp only [List.length_dropLast, List.length_cons] at hlen ⊢; omega)
        rw [findPomXMLGo.eq_def]
        simp only [h, List.length_dropLast, List.length_cons] at hrec ⊢
        simp only [Bool.false_eq_true, if_false]
        omega

/-- The JS descriptor locator returns the ancestor `N` parent-steps up when
that is the nearest one with a descriptor and it lies strictly above the
root exclusion boundary (`N < depth`), in exactly `N` steps. -/
theorem findPomXmlJs_exact (hasPom : List String → Bool) :
    ∀ (N : Nat) (dir : List String), N < dir.length →
      hasPom (dir.take (dir.length - N)) = true →
      (∀ k, k < N → hasPom (dir.take (dir.length - k)) = false) →
      findPomXmlJs hasPom dir = (some (dir.take (dir.length - N)), N) := by
  intro N
  induction N with
  | zero =>
    intro dir hN hp _
    rw [Nat.sub_zero, List.take_length] at hp
    rw [Nat.sub_zero, List.take_length]
    cases dir with
    | nil => simp at hN
    | cons d ds => rw [findPomXmlJs.eq_def]; simp [hp]
  | succ N ih =>
    intro dir hN hp hmin
    have h0 : hasPom dir = false := by
      have := hmin 0 (Nat.succ_pos N)
      rwa [Nat.sub_zero, List.take_length] at this
    cases dir with
    | nil => simp at hN
    | cons d ds =>
      have harith : (d :: ds).dropLast.length - N = (d :: ds).length - (N + 1) := by
        simp only [List.length_dropLast, List.length_cons]; omega
      have hsub : (d :: ds).length - (N + 1) ≤ (d :: ds).length - 1 := by
        simp only [List.length_cons]; omega
      have hrec := ih (d :: ds).dropLast
        (by simp only [List.length_dropLast, List.length_cons] at hN ⊢; omega)
        (by rw [harith, take_dropLast _ _ hsub]; exact hp)
        (by intro k hk
            have harith2 : (d :: ds).dropLast.length - k
                = (d :: ds).length - (k + 1) := by
              simp only [List.length_dropLast, List.length_cons]; omega
            rw [harith2, take_dropLast _ _
              (by simp only [List.length_cons]; omega)]
            exact hmin (k + 1) (by omega))
      rw [harith, take_dropLast _ _ hsub] at hrec
      rw [findPomXmlJs.eq_def]
      simp [h0, hrec]

/-- When every ancestor strictly below the root lacks a descriptor, the JS
locator fails — even if the root itself contains one, since the loop stops
before checking the root. -/
theorem findPomXmlJs_root_excluded (hasPom : List String → Bool) :
    ∀ (n : Nat) (dir : List String), dir.length = n →
      (∀ k, 1 ≤ k → k ≤ dir.length → hasPom (dir.take k) = false) →
      findPomXmlJs hasPom dir = (none, dir.length) := by
  intro n
  induction n with
  | zero =>
    intro dir hlen _
    have hd : dir = [] := List.length_eq_zero.mp hlen
    subst hd
    rw [findPomXmlJs.eq_def]
    simp
  | succ n ih =>
    intro dir hlen hall
    have h0 : hasPom dir = false := by
      have := hall dir.length (by omega) (Nat.le_refl _)
      rwa [List.take_length] at this
    cases dir with
    | nil => simp at hlen
    | cons d ds =>
      have hrec := ih (d :: ds).dropLast
        (by simp only [List.length_dropLast, List.length_cons] at hlen ⊢; omega)
        (by intro k hk1 hk
            simp only [List.length_dropLast, List.length_cons] at hk
            rw [take_dropLast _ _ (by simp only [List.length_cons]; omega)]
            exact hall k hk1 (by simp only [List.length_cons]; omega))
      rw [findPomXmlJs.eq_def]
      simp only [List.length_dropLast, List.length_cons] at hrec
      simp [h0, hrec]

/-- The JS locator performs at most `depth` parent steps. -/
theorem findPomXmlJs_steps_le (hasPom : List String → Bool) :
    ∀ (n : Nat) (dir : List String), dir.length ≤ n →
      (findPomXmlJs hasPom dir).2 ≤ dir.length := by
  intro n
  induction n with
  | zero =>
    intro dir hlen
    have hd : dir = [] := List.length_eq_zero.mp (Nat.le_zero.mp hlen)
    subst hd
    rw [findPomXmlJs.eq_def]
    simp
  | succ n ih =>
    intro dir hlen
    cases dir with
    | nil => rw [findPomXmlJs.eq_def]; simp
    | cons d ds =>
      cases h : hasPom (d :: ds) with
      | true => rw [findPomXmlJs.eq_def]; simp [h]
      | false =>
        have hrec := ih (d :: ds).dropLast
          (by simp only [List.length_dropLast, List.length_cons] at hlen ⊢; omega)
        rw [findPomXmlJs.eq_def]
        simp only [h, List.length_dropLast, List.length_cons] at hrec ⊢
        simp only [Bool.false_eq_true, if_false]
        omega

/-- Counterexample for C9: with a descriptor present only at the filesystem
root, starting one level down, the JS locator returns nothing (its loop
stops before checking the root), while the Go locator finds the root
descriptor — so the JS locator does not search "up to and including the
filesystem root" as claimed. -/
theorem C9_counterexample :
    (findPomXmlJs (fun d => decide (d = [])) ["a"]).1 = none ∧
    (findPomXMLGo (fun d => decide (d = [])) ["a"]).1 = some [] := by
  constructor
  · have h := findPomXmlJs_root_excluded (fun d => decide (d = [])) 1 ["a"] rfl
      (by intro k h1 h2
          simp only [List.length_cons, List.length_nil] at h2
          have hk : k = 1 := by omega
          subst hk; decide)
    rw [h]
  · have h := findPomXMLGo_exact (fun d => decide (d = [])) 1 ["a"]
      (by decide) (by decide)
      (by intro k hk
          have hk0 : k = 0 := by omega
          subst hk0; decide)
    rw [h]; rfl

/-- C9 (amended): the Go locator behaves as claimed — it returns the nearest
descriptor found while stepping from the starting directory through its
parents up to and including the filesystem root (a descriptor N levels up
after exactly N steps), fails when no ancestor up to the root has one, and
takes at most depth-of-path parent steps.  The JS locator does the same
except that its loop stops before the root: only descriptors strictly above
the root are found, and a descriptor at the root alone still yields failure. -/
theorem C9_descriptor_locator :
    (∀ (hasPom : List String → Bool) (dir : List String) (N : Nat),
      N ≤ dir.length →
      hasPom (dir.take (dir.length - N)) = true →
      (∀ k, k < N → hasPom (dir.take (dir.length - k)) = false) →
      findPomXMLGo hasPom dir = (some (dir.take (dir.length - N)), N)) ∧
    (∀ (hasPom : List String → Bool) (dir : List String),
      (∀ k, k ≤ dir.length → hasPom (dir.take k) = false) →
      findPomXMLGo hasPom dir = (none, dir.length)) ∧
    (∀ (hasPom : List String → Bool) (dir : List String),
      (findPomXMLGo hasPom dir).2 ≤ dir.length) ∧
    (∀ (hasPom : List String → Bool) (dir : List String) (N : Nat),
      N < dir.length →
      hasPom (dir.take (dir.length - N)) = true →
      (∀ k, k < N → hasPom (dir.take (dir.length - k)) = false) →
      findPomXmlJs hasPom dir = (some (dir.take (dir.length - N)), N)) ∧
    (∀ (hasPom : List String → Bool) (dir : List String),
      (∀ k, 1 ≤ k → k ≤ dir.length → hasPom (dir.take k) = false) →
      findPomXmlJs hasPom dir = (none, dir.length)) ∧
    (∀ (hasPom : List String → Bool) (dir : List String),
      (findPomXmlJs hasPom dir).2 ≤ dir.length) :=
  ⟨fun hasPom dir N hN hp hmin => findPomXMLGo_exact hasPom N dir hN hp hmin,
   fun hasPom dir hall => findPomXMLGo_none hasPom dir.length dir rfl hall,
   fun hasPom dir => findPomXMLGo_steps_le hasPom dir.length dir (Nat.le_refl _),
   fun hasPom dir N hN hp hmin => findPomXmlJs_exact hasPom N dir hN hp hmin,
   fun hasPom dir hall => findPomXmlJs_root_excluded hasPom dir.length dir rfl hall,
   fun hasPom dir => findPomXmlJs_steps_le hasPom dir.length dir (Nat.le_refl _)⟩

/-- Witness for C9 on concrete three-segment directories. -/
theorem C9_descriptor_locator_witness :
    findPomXMLGo (fun d => decide (d = ["repo"])) ["repo", "app1", "core"] =
      (some (["repo", "app1", "core"].take (["repo", "app1", "core"].length - 2)), 2) ∧
    findPomXMLGo (fun _ => false) ["a", "b"] = (none, (["a", "b"] : List String).length) ∧
    (findPomXMLGo (fun _ => false) ["a", "b"]).2 ≤ (["a", "b"] : List String).length ∧
    findPomXmlJs (fun d => decide (d = ["repo", "app1"])) ["repo", "app1", "core"] =
      (some (["repo", "app1", "core"].take (["repo", "app1", "core"].length - 1)), 1) ∧
    findPomXmlJs (fun d => decide (d = [])) ["a"] = (none, (["a"] : List String).length) ∧
    (findPomXmlJs (fun d => decide (d = [])) ["a"]).2 ≤ (["a"] : List String).length :=
  ⟨C9_descriptor_locator.1 (fun d => decide (d = ["repo"]))
     ["repo", "app1", "core"] 2 (by decide) (by decide)
     (by intro k hk
         have : k = 0 ∨ k = 1 := by omega
         rcases this with h | h <;> subst h <;> decide),
   C9_descriptor_locator.2.1 (fun _ => false) ["a", "b"]
     (fun k _ => rfl),
   C9_descriptor_locator.2.2.1 (fun _ => false) ["a", "b"],
   C9_descriptor_locator.2.2.2.1 (fun d => decide (d = ["repo", "app1"]))
     ["repo", "app1", "core"] 1 (by decide) (by decide)
     (by intro k hk
         have : k = 0 := by omega
         subst this; decide),
   C9_descriptor_locator.2.2.2.2.1 (fun d => decide (d = [])) ["a"]
     (by intro k h1 h2
         simp only [List.length_cons, List.length_nil] at h2
         have hk : k = 1 := by omega
         subst hk; decide),
   C9_descriptor_locator.2.2.2.2.2 (fun d => decide (d = [])) ["a"]⟩
